import Mathlib

/-!
# Verification of the Azure object-store facade and its multipart upload engine

Shallow embedding of `src/object_store/src/azure/mod.rs` (the `MicrosoftAzure`
object store: its `ObjectStore`, `Signer`, `PutPart` and `MultiPartStore`
implementations), together with a model of the generic multipart upload engine
(`crate::multipart::WriteMultiPart`) that the facade instantiates.

The facade delegates every network operation to an `AzureClient`; here the
client is a record of pure oracles, and each facade operation returns its
result together with the list of backend calls it issued, so that properties
such as "abort performs no backend call" or "the part list is passed to the
backend unchanged" are observable.
-/

namespace ObjStore

/-- Logical object path (`crate::path::Path`). -/
abbrev Path := String

/-- A URL, kept abstract as its textual form (`url::Url`). -/
abbrev Url := String

/-- `crate::MultipartId`, a `String` alias in the crate. -/
abbrev MultipartId := String

/-- Uniform error type standing for `crate::Error` (transport and signing failures). -/
abbrev Err := String

/-- `std::time::Duration`, abstracted to a number of time units. -/
abbrev Duration := Nat

/-- HTTP method (`reqwest::Method`). -/
inductive Method where
  | GET
  | PUT
  | POST
  | DELETE
  | HEAD
deriving DecidableEq, Repr

/-- `crate::multipart::PartId`: opaque backend-issued token for an uploaded part. -/
structure PartId where
  content : String
deriving DecidableEq, Repr

/-- `crate::PutResult`: metadata returned by a successful completion. -/
structure PutResult where
  e_tag : Option String
  version : Option String
deriving DecidableEq, Repr

/-- One backend network call, as issued by the facade. Recording these calls in a
trace makes delegation observable without fixing the backend's behaviour. -/
inductive BackendCall where
  | putBlock (path : Path) (idx : Nat) (data : List Nat)
  | putBlockList (path : Path) (parts : List PartId)
  | copyRequest (source : Path) (dest : Path) (overwrite : Bool)
  | acquireSigner (expires_in : Duration)
  | signUrl (url : Url)
deriving DecidableEq, Repr

/-- The signer object returned by `AzureClient::signer`: it signs a URL for a
method (`credential::AzureSigner::sign`, an external collaborator, kept abstract). -/
structure SignerObj where
  sign : Method → Url → Except Err Url

/-- `client::AzureClient`, abstracted as a record of pure oracles for the network
operations the facade in `azure/mod.rs` invokes. The client itself is an external
collaborator (`azure/client.rs`); only its interface matters here. -/
structure AzureClient where
  put_block : Path → Nat → List Nat → Except Err PartId
  put_block_list : Path → List PartId → Except Err PutResult
  copy_request : Path → Path → Bool → Except Err Unit
  signer : Duration → Except Err SignerObj
  path_url : Path → Url

namespace MicrosoftAzure

/-- `MicrosoftAzure::copy` (azure/mod.rs lines 130-132): delegates to
`copy_request(from, to, true)`, i.e. overwrite enabled. -/
def copy (c : AzureClient) (f t : Path) : Except Err Unit × List BackendCall :=
  (c.copy_request f t true, [.copyRequest f t true])

/-- `MicrosoftAzure::copy_if_not_exists` (azure/mod.rs lines 134-136): delegates to
`copy_request(from, to, false)`, i.e. overwrite disabled. -/
def copy_if_not_exists (c : AzureClient) (f t : Path) : Except Err Unit × List BackendCall :=
  (c.copy_request f t false, [.copyRequest f t false])

/-- `MicrosoftAzure::abort_multipart` (azure/mod.rs lines 108-112): returns `Ok(())`
unconditionally; blocks expire passively after 7 days, so no backend call is made. -/
def abort_multipart (c : AzureClient) (location : Path) (multipart_id : MultipartId) :
    Except Err Unit × List BackendCall :=
  (.ok (), [])

/-- Per-path signing loop of `MicrosoftAzure::signed_urls` (azure/mod.rs lines 186-190):
for each path, build its URL and sign it with the already-acquired signer, stopping
at the first signing error. -/
def signLoop (c : AzureClient) (s : SignerObj) (m : Method) :
    List Path → Except Err (List Url) × List BackendCall
  | [] => (.ok [], [])
  | p :: ps =>
    match s.sign m (c.path_url p) with
    | .error e => (.error e, [.signUrl (c.path_url p)])
    | .ok u =>
      let rest := signLoop c s m ps
      (rest.1.map (u :: ·), .signUrl (c.path_url p) :: rest.2)

/-- `MicrosoftAzure::signed_urls` (azure/mod.rs lines 178-192): acquire the signing
credential once, then sign a URL for every path in input order. -/
def signed_urls (c : AzureClient) (m : Method) (paths : List Path) (expires_in : Duration) :
    Except Err (List Url) × List BackendCall :=
  match c.signer expires_in with
  | .error e => (.error e, [.acquireSigner expires_in])
  | .ok s =>
    let rest := signLoop c s m paths
    (rest.1, .acquireSigner expires_in :: rest.2)

end MicrosoftAzure

/-- Number of credential acquisitions recorded in a backend-call trace. -/
def countAcquire (tr : List BackendCall) : Nat :=
  tr.countP fun e =>
    match e with
    | .acquireSigner _ => true
    | _ => false

/-- `AzureMultiPartUpload` (azure/mod.rs lines 200-204): the `PutPart` capability
for one location, backed by an `AzureClient`. -/
structure AzureMultiPartUpload where
  client : AzureClient
  location : Path

namespace AzureMultiPartUpload

/-- `PutPart::put_part for AzureMultiPartUpload` (azure/mod.rs lines 208-210):
delegates to `put_block(location, idx, buf)`. -/
def put_part (u : AzureMultiPartUpload) (buf : List Nat) (idx : Nat) :
    Except Err PartId × List BackendCall :=
  (u.client.put_block u.location idx buf, [.putBlock u.location idx buf])

/-- `PutPart::complete for AzureMultiPartUpload` (azure/mod.rs lines 212-215):
delegates to `put_block_list(location, parts)` and discards the `PutResult`. -/
def complete (u : AzureMultiPartUpload) (parts : List PartId) :
    Except Err Unit × List BackendCall :=
  ((u.client.put_block_list u.location parts).map (fun _ => ()),
   [.putBlockList u.location parts])

end AzureMultiPartUpload

namespace AzureMultiPartStore

/-- `MultiPartStore::create_multipart for MicrosoftAzure` (azure/mod.rs lines 220-222):
returns the empty-string sentinel, issuing no backend call. -/
def create_multipart (c : AzureClient) (p : Path) :
    Except Err MultipartId × List BackendCall :=
  (.ok "", [])

/-- `MultiPartStore::put_part for MicrosoftAzure` (azure/mod.rs lines 224-232):
ignores the session id and delegates to `put_block(path, part_idx, data)`. -/
def put_part (c : AzureClient) (path : Path) (m : MultipartId) (part_idx : Nat)
    (data : List Nat) : Except Err PartId × List BackendCall :=
  (c.put_block path part_idx data, [.putBlock path part_idx data])

/-- `MultiPartStore::complete_multipart for MicrosoftAzure` (azure/mod.rs lines 234-241):
ignores the session id and passes the caller's part list to `put_block_list` verbatim. -/
def complete_multipart (c : AzureClient) (path : Path) (m : MultipartId)
    (parts : List PartId) : Except Err PutResult × List BackendCall :=
  (c.put_block_list path parts, [.putBlockList path parts])

/-- `MultiPartStore::abort_multipart for MicrosoftAzure` (azure/mod.rs lines 243-247):
returns `Ok(())` unconditionally, issuing no backend call. -/
def abort_multipart (c : AzureClient) (p : Path) (m : MultipartId) :
    Except Err Unit × List BackendCall :=
  (.ok (), [])

end AzureMultiPartStore

/-! ## The multipart upload engine

`MicrosoftAzure::put_multipart` (azure/mod.rs lines 97-106) wraps an
`AzureMultiPartUpload` in `crate::multipart::WriteMultiPart::new(inner, 8)`.
The `WriteMultiPart` engine itself lives in `crate::multipart`, outside the
visible source; its behaviour is modelled here from the specification. -/

/-- Modelled from the spec: the configured minimum part size used by the buffering
engine (`crate::multipart::WriteMultiPart`, not in the visible source). The module
documentation (azure/mod.rs lines 22-24) and the spec fix it at 5 MiB for this
backend. -/
def azureMinPartSize : Nat := 5 * 1024 * 1024

/-- The concurrency bound the Azure backend configures for the engine:
`WriteMultiPart::new(inner, 8)` (azure/mod.rs line 105). -/
def azureMaxConcurrency : Nat := 8

/-- Modelled from the spec: the buffering state of `WriteMultiPart` (not in the
visible source) — an accumulation buffer, a monotone next part index, and the
parts already carved off (index paired with its bytes), in carve order. -/
structure WState where
  buffer : List Nat
  nextIdx : Nat
  parts : List (Nat × List Nat)
deriving DecidableEq, Repr

/-- Initial writer state: empty buffer, next index 0, no parts carved. -/
def wInit : WState := ⟨[], 0, []⟩

/-- Modelled from the spec: one `write(bytes)` call of `WriteMultiPart` (not in the
visible source). The bytes are appended to the accumulation buffer; whenever the
buffer reaches or exceeds the configured minimum part size, the engine carves off
exactly one part of the full accumulated size, assigning it the next index. -/
def wWrite (minSize : Nat) (st : WState) (bytes : List Nat) : WState :=
  if minSize ≤ (st.buffer ++ bytes).length then
    ⟨[], st.nextIdx + 1, st.parts ++ [(st.nextIdx, st.buffer ++ bytes)]⟩
  else
    ⟨st.buffer ++ bytes, st.nextIdx, st.parts⟩

/-- Run a sequence of write calls from the initial state. -/
def runWrites (minSize : Nat) (ws : List (List Nat)) : WState :=
  ws.foldl (wWrite minSize) wInit

/-- Modelled from the spec: the parts emitted over a whole run of `WriteMultiPart`
(not in the visible source) — the carved parts followed by the final part, which
`close()` flushes from the remaining buffer even when it is empty. -/
def wClose (st : WState) : List (Nat × List Nat) :=
  st.parts ++ [(st.nextIdx, st.buffer)]

/-- Modelled from the spec: `close()` of `WriteMultiPart` (not in the visible
source), executed against a part-upload oracle `o` and a completion oracle
`compl`. Every emitted part is uploaded; if any upload fails the first failure
is propagated and completion is not attempted; only when all uploads succeed is
`compl` invoked on the collected part ids. The second component counts how many
times `compl` was invoked. -/
def collectParts (o : Nat → List Nat → Except Err PartId) :
    List (Nat × List Nat) → Except Err (List PartId)
  | [] => .ok []
  | p :: ps =>
    match o p.1 p.2 with
    | .error e => .error e
    | .ok id =>
      match collectParts o ps with
      | .error e => .error e
      | .ok rest => .ok (id :: rest)

/-- Modelled from the spec: the upload-and-complete phase of `WriteMultiPart`
(not in the visible source), executed against a part-upload oracle `o` and a
completion oracle `compl`. If any upload fails, the first failure observed is
propagated and completion is not attempted; only when all uploads succeed is
`compl` invoked on the collected part ids. The second component counts how many
times `compl` was invoked. -/
def wCloseRun (o : Nat → List Nat → Except Err PartId)
    (compl : List PartId → Except Err Unit)
    (parts : List (Nat × List Nat)) : Except Err Unit × Nat :=
  match collectParts o parts with
  | .error e => (.error e, 0)
  | .ok ids => (compl ids, 1)

/-- `WriteMultiPart` handle as created by `put_multipart`: the inner
`AzureMultiPartUpload`, the configured concurrency bound, and the buffering state. -/
structure WriteMultiPart where
  inner : AzureMultiPartUpload
  max_concurrency : Nat
  st : WState

/-- `WriteMultiPart::new(inner, max_concurrency)`: fresh buffering state. -/
def WriteMultiPart.new (inner : AzureMultiPartUpload) (maxc : Nat) : WriteMultiPart :=
  ⟨inner, maxc, wInit⟩

/-- `MicrosoftAzure::put_multipart` (azure/mod.rs lines 97-106): returns the
empty-string sentinel as `MultipartId` together with
`WriteMultiPart::new(AzureMultiPartUpload { client, location }, 8)`. -/
def MicrosoftAzure.put_multipart (c : AzureClient) (location : Path) :
    Except Err (MultipartId × WriteMultiPart) × List BackendCall :=
  (.ok ("", WriteMultiPart.new ⟨c, location⟩ 8), [])

/-! ## Bounded-concurrency scheduling model -/

/-- Modelled from the spec: the scheduling state of the engine's in-flight part
uploads (the admission gate of `WriteMultiPart`, not in the visible source):
how many carved parts still await dispatch, how many uploads are in flight, and
how many have finished. -/
structure UpState where
  pending : Nat
  inflight : Nat
  uploaded : Nat
deriving DecidableEq, Repr

/-- Modelled from the spec: the transitions of the engine's upload scheduler (not
in the visible source). A pending part may be dispatched only while fewer than
`bound` uploads are in flight (the semaphore-equivalent admission gate); an
in-flight upload may finish, releasing its slot. -/
inductive UpStep (bound : Nat) : UpState → UpState → Prop
  | dispatch (s : UpState) (h : s.inflight < bound) (hp : 0 < s.pending) :
      UpStep bound s ⟨s.pending - 1, s.inflight + 1, s.uploaded⟩
  | finish (s : UpState) (h : 0 < s.inflight) :
      UpStep bound s ⟨s.pending, s.inflight - 1, s.uploaded + 1⟩

/-- States reachable by the upload scheduler from `total` carved parts, nothing
dispatched yet. -/
inductive UpReach (bound : Nat) (total : Nat) : UpState → Prop
  | init : UpReach bound total ⟨total, 0, 0⟩
  | step {s t : UpState} : UpReach bound total s → UpStep bound s t → UpReach bound total t

/-! ## Ordering by part index -/

/-- Comparison of carved parts by their assigned index (non-strict). -/
def partLe (a b : Nat × List Nat) : Prop := a.1 ≤ b.1

/-- Comparison of carved parts by their assigned index (strict). -/
def partLt (a b : Nat × List Nat) : Prop := a.1 < b.1

instance : DecidableRel partLe := fun a b => Nat.decLe a.1 b.1

instance : IsTotal (Nat × List Nat) partLe := ⟨fun a b => Nat.le_total a.1 b.1⟩

instance : IsTrans (Nat × List Nat) partLe := ⟨fun _ _ _ h₁ h₂ => Nat.le_trans h₁ h₂⟩

instance : IsAntisymm (Nat × List Nat) partLt :=
  ⟨fun _ _ h₁ h₂ => absurd (Nat.lt_trans h₁ h₂) (Nat.lt_irrefl _)⟩

/-- Modelled from the spec: the engine re-sorts uploaded parts by their assigned
index before building the completion list, so that completion order of network
calls never determines final object byte order. -/
def sortByIndex (l : List (Nat × List Nat)) : List (Nat × List Nat) :=
  l.insertionSort partLe

/-! ## Invariants of the buffering writer -/

/-- Invariant tying a writer state to the bytes written so far: the carved parts
followed by the buffer reconstruct the input, and part indices are exactly
`0, 1, …, nextIdx - 1` in order. -/
def WInvariant (st : WState) (written : List Nat) : Prop :=
  (st.parts.map Prod.snd).flatten ++ st.buffer = written ∧
  st.parts.map Prod.fst = List.range st.nextIdx

theorem wInit_inv : WInvariant wInit [] := ⟨rfl, rfl⟩

theorem wWrite_inv {m : Nat} {st : WState} {w b : List Nat} (h : WInvariant st w) :
    WInvariant (wWrite m st b) (w ++ b) := by
  obtain ⟨h₁, h₂⟩ := h
  unfold wWrite
  split
  · refine ⟨?_, ?_⟩
    · simp only [List.map_append, List.map_cons, List.map_nil, List.flatten_append,
        List.flatten_cons, List.flatten_nil, List.append_nil]
      rw [← List.append_assoc, h₁]
    · simp [List.range_succ, h₂]
  · exact ⟨by rw [← List.append_assoc, h₁], h₂⟩

theorem foldl_wWrite_inv (m : Nat) :
    ∀ (ws : List (List Nat)) (st : WState) (w : List Nat), WInvariant st w →
      WInvariant (ws.foldl (wWrite m) st) (w ++ ws.flatten)
  | [], st, w, h => by simpa using h
  | b :: ws, st, w, h => by
    have := foldl_wWrite_inv m ws (wWrite m st b) (w ++ b) (wWrite_inv h)
    simpa [List.append_assoc] using this

theorem runWrites_inv (m : Nat) (ws : List (List Nat)) :
    WInvariant (runWrites m ws) ws.flatten := by
  simpa using foldl_wWrite_inv m ws wInit [] wInit_inv

/-- Every carved (non-final) part has at least the configured minimum size. -/
def WSized (m : Nat) (st : WState) : Prop := ∀ p ∈ st.parts, m ≤ p.2.length

theorem wWrite_sized {m : Nat} {st : WState} {b : List Nat} (h : WSized m st) :
    WSized m (wWrite m st b) := by
  unfold wWrite
  split
  · intro p hp
    rcases List.mem_append.mp hp with hmem | hmem
    · exact h p hmem
    · rcases List.mem_singleton.mp hmem with rfl
      assumption
  · exact h

theorem runWrites_sized (m : Nat) (ws : List (List Nat)) : WSized m (runWrites m ws) := by
  suffices h : ∀ (ws : List (List Nat)) (st : WState), WSized m st →
      WSized m (ws.foldl (wWrite m) st) by
    exact h ws wInit (by intro p hp; cases hp)
  intro ws
  induction ws with
  | nil => exact fun st h => h
  | cons b ws ih => exact fun st h => ih (wWrite m st b) (wWrite_sized h)

theorem runWrites_of_no_bytes {m : Nat} (hm : 0 < m) :
    ∀ (ws : List (List Nat)), ws.flatten = [] → runWrites m ws = wInit
  | [], _ => rfl
  | b :: ws, h => by
    rw [List.flatten_cons, List.append_eq_nil] at h
    obtain ⟨hb, hws⟩ := h
    have hstep : wWrite m wInit b = wInit := by
      subst hb
      unfold wWrite wInit
      simp [Nat.not_le_of_lt hm]
    calc (b :: ws).foldl (wWrite m) wInit
        = ws.foldl (wWrite m) (wWrite m wInit b) := rfl
      _ = ws.foldl (wWrite m) wInit := by rw [hstep]
      _ = wInit := runWrites_of_no_bytes hm ws hws

/-! ## Sorting recovers the carve order -/

theorem sorted_lt_of_le_nodup :
    ∀ {l : List (Nat × List Nat)}, l.Sorted partLe → (l.map Prod.fst).Nodup →
      l.Sorted partLt
  | [], _, _ => List.sorted_nil
  | a :: l, hs, hn => by
    rw [List.sorted_cons] at hs ⊢
    rw [List.map_cons, List.nodup_cons] at hn
    refine ⟨fun b hb => Nat.lt_of_le_of_ne (hs.1 b hb) ?_, sorted_lt_of_le_nodup hs.2 hn.2⟩
    intro heq
    exact hn.1 (by rw [heq]; exact List.mem_map_of_mem _ hb)

theorem sorted_lt_of_map_fst_range {l : List (Nat × List Nat)} {n : Nat}
    (h : l.map Prod.fst = List.range n) : l.Sorted partLt := by
  have hp := List.pairwise_lt_range n
  rw [← h, List.pairwise_map] at hp
  exact hp

/-- A permutation of the emitted parts, once re-sorted by assigned index, is the
emitted part list itself (part indices are distinct, so the order is unique). -/
theorem sortByIndex_of_perm {canonical completed : List (Nat × List Nat)} {n : Nat}
    (hfst : canonical.map Prod.fst = List.range n)
    (hperm : completed.Perm canonical) :
    sortByIndex completed = canonical := by
  have hps : (sortByIndex completed).Perm canonical :=
    (List.perm_insertionSort partLe completed).trans hperm
  have hnodup : ((sortByIndex completed).map Prod.fst).Nodup := by
    have hcn : (canonical.map Prod.fst).Nodup := hfst ▸ List.nodup_range n
    exact ((hps.map Prod.fst).symm).nodup hcn
  have hsorted : (sortByIndex completed).Sorted partLt :=
    sorted_lt_of_le_nodup (List.sorted_insertionSort partLe completed) hnodup
  exact List.eq_of_perm_of_sorted hps hsorted (sorted_lt_of_map_fst_range hfst)

theorem wClose_map_fst {st : WState} (h : st.parts.map Prod.fst = List.range st.nextIdx) :
    (wClose st).map Prod.fst = List.range (st.nextIdx + 1) := by
  simp [wClose, List.range_succ, h]

theorem wClose_flatten {st : WState} {w : List Nat} (h : WInvariant st w) :
    ((wClose st).map Prod.snd).flatten = w := by
  simp only [wClose, List.map_append, List.map_cons, List.map_nil, List.flatten_append,
    List.flatten_cons, List.flatten_nil, List.append_nil]
  exact h.1

/-! ## Failure propagation -/

theorem collectParts_error {o : Nat → List Nat → Except Err PartId} :
    ∀ {parts : List (Nat × List Nat)},
      (∃ p ∈ parts, ∃ e, o p.1 p.2 = .error e) →
      ∃ e, collectParts o parts = .error e
  | [], h => by simp at h
  | p :: ps, h => by
    obtain ⟨q, hq, e, he⟩ := h
    rcases List.mem_cons.mp hq with rfl | hq'
    · exact ⟨e, by simp [collectParts, he]⟩
    · match ho : o p.1 p.2 with
      | .error e' => exact ⟨e', by simp [collectParts, ho]⟩
      | .ok id =>
        obtain ⟨e'', he''⟩ := collectParts_error ⟨q, hq', e, he⟩
        exact ⟨e'', by simp [collectParts, ho, he'']⟩

/-! ## Suspension at a full admission gate -/

theorem full_gate_suspends {s : UpState} (hfull : s.inflight = azureMaxConcurrency) :
    ∀ t, UpStep azureMaxConcurrency s t →
      t.pending = s.pending ∧ t.inflight < azureMaxConcurrency := by
  intro t hstep
  cases hstep with
  | dispatch h hp => exact absurd hfull (Nat.ne_of_lt h)
  | finish h =>
    refine ⟨rfl, ?_⟩
    show s.inflight - 1 < azureMaxConcurrency
    rw [hfull]
    simp [azureMaxConcurrency]

/-! ## Helper lemmas for the signing subsystem -/

theorem signLoop_no_acquire (c : AzureClient) (s : SignerObj) (m : Method) :
    ∀ paths, countAcquire (MicrosoftAzure.signLoop c s m paths).2 = 0
  | [] => rfl
  | p :: ps => by
    unfold MicrosoftAzure.signLoop
    match s.sign m (c.path_url p) with
    | .error e => simp [countAcquire]
    | .ok u =>
      have := signLoop_no_acquire c s m ps
      simpa [countAcquire, List.countP_cons] using this

theorem signLoop_ok (c : AzureClient) (s : SignerObj) (m : Method) :
    ∀ {paths : List Path} {urls : List Url},
      (MicrosoftAzure.signLoop c s m paths).1 = .ok urls →
      List.Forall₂ (fun p u => s.sign m (c.path_url p) = .ok u) paths urls
  | [], urls, h => by
    simp only [MicrosoftAzure.signLoop, Except.ok.injEq] at h
    subst h
    exact List.Forall₂.nil
  | p :: ps, urls, h => by
    unfold MicrosoftAzure.signLoop at h
    match hs : s.sign m (c.path_url p) with
    | .error e => rw [hs] at h; simp at h
    | .ok u =>
      rw [hs] at h
      dsimp only at h
      match hrest : (MicrosoftAzure.signLoop c s m ps).1 with
      | .error e => rw [hrest] at h; simp [Except.map] at h
      | .ok us =>
        rw [hrest] at h
        simp only [Except.map, Except.ok.injEq] at h
        subst h
        exact List.Forall₂.cons hs (signLoop_ok c s m hrest)

/-! ## The claims -/

/-- C1: for every input byte sequence, however it is split across write calls, the
final object — the concatenation of the completed parts re-sorted in ascending
index order, whatever order the concurrent uploads completed in — equals the
original bytes exactly. -/
theorem roundtrip_reconstruction (ws : List (List Nat)) (completed : List (Nat × List Nat))
    (hperm : completed.Perm (wClose (runWrites azureMinPartSize ws))) :
    ((sortByIndex completed).map Prod.snd).flatten = ws.flatten := by
  have hinv := runWrites_inv azureMinPartSize ws
  have hfst := wClose_map_fst hinv.2
  rw [sortByIndex_of_perm hfst hperm]
  exact wClose_flatten hinv

/-- Witness for C1: a concrete run (two write calls, parts completed as emitted)
reassembles to the written bytes. -/
theorem roundtrip_reconstruction_witness :
    ((sortByIndex [(0, [1, 2, 3])]).map Prod.snd).flatten
      = ([[1], [2, 3]] : List (List Nat)).flatten :=
  roundtrip_reconstruction [[1], [2, 3]] [(0, [1, 2, 3])] (by decide)

/-- C2: whenever at least one part upload fails, `close()` propagates an error and
the `complete` operation on the part uploader is never invoked. -/
theorem close_fails_without_complete (o : Nat → List Nat → Except Err PartId)
    (compl : List PartId → Except Err Unit) (parts : List (Nat × List Nat))
    (hfail : ∃ p ∈ parts, ∃ e, o p.1 p.2 = .error e) :
    (∃ e, (wCloseRun o compl parts).1 = .error e) ∧ (wCloseRun o compl parts).2 = 0 := by
  obtain ⟨e, he⟩ := collectParts_error hfail
  exact ⟨⟨e, by simp [wCloseRun, he]⟩, by simp [wCloseRun, he]⟩

/-- Witness for C2: with an oracle that fails the single part, close errors and
the completion count is zero. -/
theorem close_fails_without_complete_witness :
    (∃ e, (wCloseRun (fun _ _ => .error "boom") (fun _ => .ok ()) [(0, [])]).1 = .error e) ∧
    (wCloseRun (fun _ _ => .error "boom") (fun _ => .ok ()) [(0, [])]).2 = 0 :=
  close_fails_without_complete _ _ _ ⟨(0, []), by simp, "boom", rfl⟩

/-- C3: in every reachable state of the upload scheduler configured with the Azure
bound of 8, at most 8 uploads are in flight, no carved part is ever dropped
(pending + in-flight + uploaded is conserved), and when the admission gate is full
the only possible step is the completion of an in-flight upload — dispatching the
next part is suspended, its pending work untouched. -/
theorem concurrency_bounded (total : Nat) (s : UpState)
    (h : UpReach azureMaxConcurrency total s) :
    s.inflight ≤ azureMaxConcurrency ∧
    s.pending + s.inflight + s.uploaded = total ∧
    (s.inflight = azureMaxConcurrency →
      ∀ t, UpStep azureMaxConcurrency s t →
        t.pending = s.pending ∧ t.inflight < azureMaxConcurrency) := by
  have h12 : s.inflight ≤ azureMaxConcurrency ∧
      s.pending + s.inflight + s.uploaded = total := by
    induction h with
    | init => exact ⟨Nat.zero_le _, rfl⟩
    | step hr hstep ih =>
      cases hstep with
      | dispatch hlt hp =>
        refine ⟨hlt, ?_⟩
        have := ih.2
        dsimp only at this ⊢
        omega
      | finish hpos =>
        refine ⟨?_, ?_⟩ <;> (have h1 := ih.1; have h2 := ih.2; dsimp only at h1 h2 ⊢; omega)
  exact ⟨h12.1, h12.2, fun hfull => full_gate_suspends hfull⟩

/-- Witness for C3: the initial state with three carved parts. -/
theorem concurrency_bounded_witness :
    (UpState.mk 3 0 0).inflight ≤ azureMaxConcurrency ∧
    (UpState.mk 3 0 0).pending + (UpState.mk 3 0 0).inflight + (UpState.mk 3 0 0).uploaded = 3 ∧
    ((UpState.mk 3 0 0).inflight = azureMaxConcurrency →
      ∀ t, UpStep azureMaxConcurrency (UpState.mk 3 0 0) t →
        t.pending = (UpState.mk 3 0 0).pending ∧ t.inflight < azureMaxConcurrency) :=
  concurrency_bounded 3 ⟨3, 0, 0⟩ UpReach.init

/-- C4: every part except the final one has at least the configured minimum size
(5 MiB for this backend); the final part may be any size, and writing zero bytes
total then closing emits exactly one zero-length part, completing a zero-byte
object. -/
theorem min_part_size_policy (ws : List (List Nat)) :
    (∀ p ∈ (wClose (runWrites azureMinPartSize ws)).dropLast,
      azureMinPartSize ≤ p.2.length) ∧
    (ws.flatten = [] →
      wClose (runWrites azureMinPartSize ws) = [(0, [])] ∧
      ((wClose (runWrites azureMinPartSize ws)).map Prod.snd).flatten = []) := by
  constructor
  · intro p hp
    rw [wClose, List.dropLast_concat] at hp
    exact runWrites_sized azureMinPartSize ws p hp
  · intro h
    rw [runWrites_of_no_bytes (by decide) ws h]
    exact ⟨rfl, rfl⟩

/-- Witness for C4: two empty write calls followed by close yield exactly one
zero-length part. -/
theorem min_part_size_policy_witness :
    wClose (runWrites azureMinPartSize [[], []]) = [(0, [])] ∧
    ((wClose (runWrites azureMinPartSize [[], []])).map Prod.snd).flatten = [] :=
  (min_part_size_policy [[], []]).2 rfl

/-- C5: `signed_urls` acquires the signing credential exactly once; on success it
returns exactly one URL per input path, in input order, each signed with that one
credential; if credential acquisition fails, the whole call fails with that error
and no URLs are returned. -/
theorem signed_urls_spec (c : AzureClient) (m : Method) (paths : List Path) (d : Duration) :
    countAcquire (MicrosoftAzure.signed_urls c m paths d).2 = 1 ∧
    (∀ urls, (MicrosoftAzure.signed_urls c m paths d).1 = .ok urls →
      urls.length = paths.length ∧
      ∃ s, c.signer d = .ok s ∧
        List.Forall₂ (fun p u => s.sign m (c.path_url p) = .ok u) paths urls) ∧
    (∀ e, c.signer d = .error e → (MicrosoftAzure.signed_urls c m paths d).1 = .error e) := by
  match hcs : c.signer d with
  | .error e =>
    refine ⟨?_, ?_, ?_⟩
    · simp [MicrosoftAzure.signed_urls, hcs, countAcquire]
    · intro urls h
      simp [MicrosoftAzure.signed_urls, hcs] at h
    · intro e' he'
      injection he' with he2
      subst he2
      simp [MicrosoftAzure.signed_urls, hcs]
  | .ok s =>
    refine ⟨?_, ?_, ?_⟩
    · have hz := signLoop_no_acquire c s m paths
      rw [countAcquire] at hz ⊢
      simp [MicrosoftAzure.signed_urls, hcs, List.countP_cons, hz]
    · intro urls h
      simp only [MicrosoftAzure.signed_urls, hcs] at h
      have hf := signLoop_ok c s m h
      exact ⟨(hf.length_eq).symm, s, rfl, hf⟩
    · intro e' he'
      exact Except.noConfusion he'

/-- Witness for C5: a client whose credential acquisition fails — one acquisition
attempt, and the call returns that error. -/
theorem signed_urls_spec_witness :
    countAcquire (MicrosoftAzure.signed_urls
      ⟨fun _ _ _ => .error "no", fun _ _ => .error "no", fun _ _ _ => .error "no",
       fun _ => .error "cred", fun p => p⟩
      Method.GET ["a", "b"] 60).2 = 1 ∧
    (MicrosoftAzure.signed_urls
      ⟨fun _ _ _ => .error "no", fun _ _ => .error "no", fun _ _ _ => .error "no",
       fun _ => .error "cred", fun p => p⟩
      Method.GET ["a", "b"] 60).1 = .error "cred" :=
  ⟨(signed_urls_spec _ Method.GET ["a", "b"] 60).1,
   (signed_urls_spec _ Method.GET ["a", "b"] 60).2.2 "cred" rfl⟩

/-- C6: both abort operations return success unconditionally and issue no backend
call, leaving all state untouched — abort is a documented no-op. -/
theorem abort_multipart_noop (c : AzureClient) (location p : Path)
    (mid mid' : MultipartId) :
    MicrosoftAzure.abort_multipart c location mid = (.ok (), []) ∧
    AzureMultiPartStore.abort_multipart c p mid' = (.ok (), []) :=
  ⟨rfl, rfl⟩

/-- C7: `complete_multipart` hands the caller-supplied part list to the backend
completion call verbatim — no re-sorting, deduplication or reordering. -/
theorem complete_multipart_verbatim (c : AzureClient) (path : Path) (mid : MultipartId)
    (parts : List PartId) :
    AzureMultiPartStore.complete_multipart c path mid parts
      = (c.put_block_list path parts, [.putBlockList path parts]) :=
  rfl

/-- C8: both session-creation operations return the empty-string sentinel as the
`MultipartId`: `create_multipart` yields `""` for every path, and `put_multipart`
yields `""` alongside the writer configured with concurrency 8. -/
theorem empty_multipart_id (c : AzureClient) (p location : Path) :
    AzureMultiPartStore.create_multipart c p = (.ok "", []) ∧
    MicrosoftAzure.put_multipart c location
      = (.ok ("", WriteMultiPart.new ⟨c, location⟩ 8), []) :=
  ⟨rfl, rfl⟩

/-- C9: `copy` issues the backend copy request with overwrite enabled while
`copy_if_not_exists` issues it with overwrite disabled — two distinct code paths
whose backend traces differ for every pair of paths. -/
theorem copy_paths_distinct (c : AzureClient) (f t : Path) :
    MicrosoftAzure.copy c f t = (c.copy_request f t true, [.copyRequest f t true]) ∧
    MicrosoftAzure.copy_if_not_exists c f t
      = (c.copy_request f t false, [.copyRequest f t false]) ∧
    (MicrosoftAzure.copy c f t).2 ≠ (MicrosoftAzure.copy_if_not_exists c f t).2 :=
  ⟨rfl, rfl, by simp [MicrosoftAzure.copy, MicrosoftAzure.copy_if_not_exists]⟩

/-- C10: every `MultiPartStore` operation ignores the session identifier: for any
two session ids, `put_part`, `complete_multipart` and `abort_multipart` behave
identically (same result and same backend calls). -/
theorem session_id_ignored (c : AzureClient) (path : Path) (s1 s2 : MultipartId)
    (idx : Nat) (data : List Nat) (parts : List PartId) :
    AzureMultiPartStore.put_part c path s1 idx data
      = AzureMultiPartStore.put_part c path s2 idx data ∧
    AzureMultiPartStore.complete_multipart c path s1 parts
      = AzureMultiPartStore.complete_multipart c path s2 parts ∧
    AzureMultiPartStore.abort_multipart c path s1
      = AzureMultiPartStore.abort_multipart c path s2 :=
  ⟨rfl, rfl, rfl⟩

end ObjStore
